import Mathlib

/-!
Verification development for the product-reconciliation service
(utils.js and the Express server file).

The JavaScript source is shallowly embedded:
  numbers are modelled as rationals, JS strings as Lean strings
  processed through their character lists, regular-expression tests as
  explicit recursive scanners over character lists, worksheets as lists
  of rows (a row is an association list from column letters to cells),
  and the two HTTP handlers as pure functions (the external fetch
  collaborator is passed in as a function argument, and the single-entity
  handler additionally returns the list of keys it fetched).

Status strings follow the source: GREEN is the MATCH verdict, RED is
MISMATCH, ORANGE is UNRESOLVED.
-/

namespace ProjektDB

/-! ## JavaScript string and character primitives -/

/-- Character class of the JS regular-expression escape for whitespace,
restricted to the code points the embedding cares about. -/
def jsSpaceChars : List Char :=
  [' ', '\t', '\n', '\r', '\x0b', '\x0c', '\u00A0', '\u1680',
   '\u2000', '\u2001', '\u2002', '\u2003', '\u2004', '\u2005', '\u2006',
   '\u2007', '\u2008', '\u2009', '\u200A', '\u2028', '\u2029', '\u202F',
   '\u205F', '\u3000', '\uFEFF']

/-- Membership in the JS whitespace class. -/
def jsIsSpace (c : Char) : Bool := jsSpaceChars.contains c

/-- JS word characters (the regular-expression class behind word
boundaries): ASCII letters, digits and underscore. -/
def isWordChar (c : Char) : Bool := c.isAlpha || c.isDigit || c = '_'

/-- Lowercase ASCII letter test, the character class written a-z. -/
def isLowerAZ (c : Char) : Bool := 'a' ≤ c && c ≤ 'z'

/-- Does the list start with the given pattern? (String.prototype.startsWith
on character lists.) -/
def startsWithL : List Char → List Char → Bool
  | [], _ => true
  | _ :: _, [] => false
  | p :: ps, c :: cs => p = c && startsWithL ps cs

/-- Does the pattern occur somewhere in the list? (substring test used to
embed constant regular expressions such as the unit detectors.) -/
def containsL (pat : List Char) : List Char → Bool
  | [] => startsWithL pat []
  | c :: cs => startsWithL pat (c :: cs) || containsL pat cs

/-- Substring test on strings. -/
def strContains (s pat : String) : Bool := containsL pat.data s.data

/-- String.prototype.startsWith. -/
def jsStartsWith (s pre : String) : Bool := startsWithL pre.data s.data

/-- String.prototype.endsWith. -/
def jsEndsWith (s suf : String) : Bool := startsWithL suf.data.reverse s.data.reverse

/-- String.prototype.trim (JS trims the whitespace class at both ends). -/
def jsTrimStr (s : String) : String :=
  String.mk (((s.data.dropWhile jsIsSpace).reverse.dropWhile jsIsSpace).reverse)

/-- String.prototype.toUpperCase, ASCII fragment (the inputs handled by
this service are ASCII identifiers and Latin text). -/
def jsToUpperStr (s : String) : String := String.mk (s.data.map Char.toUpper)

/-- String.prototype.toLowerCase, ASCII fragment. -/
def jsToLowerStr (s : String) : String := String.mk (s.data.map Char.toLower)

/-! ## Numeric token scanning (the regular expression for a signed
decimal, with parseFloat fused in) -/

/-- Digit list to natural number. -/
def digitsToNat (l : List Char) : Nat :=
  l.foldl (fun acc c => acc * 10 + (c.toNat - 48)) 0

/-- Exact rational value of a matched decimal token
(sign, integer digits, fraction digits); this is parseFloat on the token. -/
def decTokenToRat (neg : Bool) (intDs fracDs : List Char) : ℚ :=
  let ip : ℚ := (digitsToNat intDs : ℚ)
  let fp : ℚ := if fracDs.isEmpty then 0 else (digitsToNat fracDs : ℚ) / ((10 : ℚ) ^ fracDs.length)
  let v := ip + fp
  if neg then -v else v

/-- Try to match the decimal-number regular expression at the head of the
list: an optional minus, one or more digits, and a greedy optional dot
plus digits.  Returns the value and the unconsumed rest. -/
def matchNumAt (s : List Char) : Option (ℚ × List Char) :=
  let neg : Bool := match s with | '-' :: _ => true | _ => false
  let s1 : List Char := match s with | '-' :: t => t | _ => s
  let ds := s1.takeWhile Char.isDigit
  let s2 := s1.dropWhile Char.isDigit
  if ds.isEmpty then none
  else
    match s2 with
    | '.' :: t =>
      let fs := t.takeWhile Char.isDigit
      if fs.isEmpty then some (decTokenToRat neg ds [], s2)
      else some (decTokenToRat neg ds fs, t.dropWhile Char.isDigit)
    | _ => some (decTokenToRat neg ds [], s2)

/-- Global scan: all non-overlapping matches of the decimal regular
expression, left to right (the g-flagged match).  The fuel starts at the
list length; every step either consumes at least one character or stops,
so the fuel never runs out. -/
def scanNumsAux : Nat → List Char → List ℚ
  | 0, _ => []
  | _, [] => []
  | fuel + 1, c :: rest =>
    match matchNumAt (c :: rest) with
    | none => scanNumsAux fuel rest
    | some (q, rest2) => q :: scanNumsAux fuel rest2

/-- All decimal tokens of the list, as rationals. -/
def scanNums (s : List Char) : List ℚ := scanNumsAux s.length s

/-- First decimal token of the list (the un-flagged match). -/
def firstNum : List Char → Option ℚ
  | [] => none
  | c :: rest =>
    match matchNumAt (c :: rest) with
    | some (q, _) => some q
    | none => firstNum rest

/-! ## Cell values -/

/-- Value stored in a worksheet cell: null, a string, or a number. -/
inductive CellVal
  | empty
  | str (s : String)
  | num (q : ℚ)
deriving DecidableEq

/-- JS truthiness of a cell value (null and the empty string and the
number zero are falsy). -/
def cellTruthy (v : CellVal) : Bool :=
  match v with
  | .empty => false
  | .str s => s != ""
  | .num q => q != 0

/-- Decimal digits of the fractional part of a nonnegative rational less
than one, stopping at zero (display helper for the String conversion of
numbers). -/
def fracDigits : Nat → ℚ → String
  | 0, _ => ""
  | fuel + 1, r =>
    if r = 0 then ""
    else
      let r10 := r * 10
      let d := (⌊r10⌋).toNat
      toString d ++ fracDigits fuel (r10 - (d : ℚ))

/-- String conversion of a JS number (decimal rendering; exact for the
terminating decimals this service handles). -/
def ratToString (q : ℚ) : String :=
  if q.den = 1 then toString q.num
  else
    let sign := if q < 0 then "-" else ""
    let a := |q|
    let ip := (⌊a⌋).toNat
    sign ++ toString ip ++ "." ++ fracDigits 30 (a - (ip : ℚ))

/-- String conversion of a cell value (String(v)); the null case is never
reached because every call site guards with a truthiness check. -/
def cellToString (v : CellVal) : String :=
  match v with
  | .empty => "null"
  | .str s => s
  | .num q => ratToString q

/-- The idiom String(v or the empty string): the string conversion of a
truthy value, otherwise the empty string. -/
def jsStringOrEmpty (v : CellVal) : String :=
  if cellTruthy v then cellToString v else ""

/-! ## utils.js: the Normalizer -/

/-- utils.js cleanNumberString: remove all whitespace, then replace the
first comma by a dot. -/
def replaceFirstComma : List Char → List Char
  | [] => []
  | c :: rest => if c = ',' then '.' :: rest else c :: replaceFirstComma rest

/-- utils.js cleanNumberString on a string. -/
def cleanNumberString (s : String) : String :=
  String.mk (replaceFirstComma (s.data.filter (fun c => !jsIsSpace c)))

/-- utils.js toNumber: null and the empty string give null, otherwise the
first decimal token of the cleaned string.  A number round-trips through
its string rendering, so it parses back to itself. -/
def toNumber (val : CellVal) : Option ℚ :=
  match val with
  | .empty => none
  | .str s => if s = "" then none else firstNum (cleanNumberString s).data
  | .num q => some q

/-- The regular expression m-g (a g not immediately preceded by k):
some adjacent pair (c, g) with c different from k. -/
def hasNonKG : List Char → Bool
  | c :: 'g' :: rest => (c != 'k') || hasNonKG ('g' :: rest)
  | _ :: rest => hasNonKG rest
  | [] => false

/-- The word-bounded single-letter-t regular expression: some t whose
neighbours (when present) are not word characters. -/
def hasStandaloneT (prev : Option Char) : List Char → Bool
  | [] => false
  | c :: rest =>
    (c = 't'
      && (match prev with | none => true | some p => !isWordChar p)
      && (match rest with | [] => true | d :: _ => !isWordChar d))
    || hasStandaloneT (some c) rest

/-- utils.js normalizeWeightToKg: clean and lowercase the text, take its
first decimal token, then scale by the detected unit (milligram, gram,
kilogram, standalone ton token, default kilogram). -/
def normalizeWeightToKg (value : CellVal) : Option ℚ :=
  match value with
  | .empty => none
  | .num q => some q
  | .str raw =>
    if raw = "" then none
    else
      let s := jsToLowerStr (cleanNumberString raw)
      match firstNum s.data with
      | none => none
      | some num =>
        if strContains s "mg" then some (num / 1000000)
        else if hasNonKG s.data && !(strContains s "kg") then some (num / 1000)
        else if strContains s "kg" then some num
        else if hasStandaloneT none s.data then some (num * 1000)
        else some num

/-- Boundary test after a matched unit letter: end of input or a
non-word character. -/
def boundaryAfter : List Char → Bool
  | [] => true
  | d :: _ => !isWordChar d

/-- The centimeter detector of the dimension parser: some occurrence of
cm preceded by a non-letter and followed by a word boundary. -/
def reNonAZcmB : List Char → Bool
  | c1 :: 'c' :: 'm' :: rest =>
    (!isLowerAZ c1 && boundaryAfter rest) || reNonAZcmB ('c' :: 'm' :: rest)
  | _ :: rest => reNonAZcmB rest
  | [] => false

/-- The meter detector of the dimension parser: some occurrence of m
preceded by a non-letter and followed by a word boundary. -/
def reNonAZmB : List Char → Bool
  | c1 :: 'm' :: rest =>
    (!isLowerAZ c1 && boundaryAfter rest) || reNonAZmB ('m' :: rest)
  | _ :: rest => reNonAZmB rest
  | [] => false

/-- Math.round: round half toward positive infinity. -/
def jsRound (q : ℚ) : ℤ := ⌊q + 1 / 2⌋

/-- Dimension triple in millimeters (components are rounded numbers). -/
structure DimTriple where
  L : Option ℤ
  B : Option ℤ
  H : Option ℤ
deriving DecidableEq

/-- Positional pick of the i-th extracted number, scaled and rounded. -/
def dimComponent (nums : List ℚ) (i : Nat) (scale : ℚ) : Option ℤ :=
  (nums[i]?).map (fun q => jsRound (q * scale))

/-- utils.js parseDimensionsToLBH: trim, lowercase, normalize the
multiplication signs to x, replace the first comma by a dot, strip
whitespace; then detect a unit (centimeter gives scale 10, meter gives
scale 1000, default scale 1), extract all decimal tokens and take the
first three, scaled and rounded, as L, B, H. -/
def parseDimensionsToLBH (text : String) : DimTriple :=
  if text = "" then ⟨none, none, none⟩
  else
    let raw := jsTrimStr text
    let s := String.mk
      (((((raw.data.map Char.toLower).map
            (fun c => if c = '×' then 'x' else c)) |> replaceFirstComma)).filter
        (fun c => !jsIsSpace c))
    let scale1 : ℚ := 1
    let scale2 : ℚ := if reNonAZcmB s.data || jsEndsWith s "cm" then 10 else scale1
    let scale : ℚ := if reNonAZmB s.data || jsEndsWith s "m" then 1000 else scale2
    let nums := scanNums s.data
    ⟨dimComponent nums 0 scale, dimComponent nums 1 scale, dimComponent nums 2 scale⟩

/-- utils.js normPartNo: falsy input gives the empty string, otherwise
uppercase and remove whitespace, hyphen, slash and underscore. -/
def jsStripClass (c : Char) : Bool := jsIsSpace c || c = '-' || c = '/' || c = '_'

/-- utils.js normPartNo (null and undefined are modelled by none). -/
def normPartNo (s : Option String) : String :=
  match s with
  | none => ""
  | some str =>
    if str = "" then ""
    else String.mk ((str.data.map Char.toUpper).filter (fun c => !jsStripClass c))

/-- utils.js withinToleranceKG.  Operands and the tolerance are optional
to model null and undefined; a missing operand gives false, a missing,
zero or non-positive tolerance selects the strict epsilon comparison. -/
def withinToleranceKG (exKg wbKg tolPct : Option ℚ) : Bool :=
  match exKg, wbKg with
  | some ex, some wb =>
    let diff := |ex - wb|
    (match tolPct with
     | none => decide (diff < 1 / 1000000000)
     | some t =>
       if t = 0 || t ≤ 0 then decide (diff < 1 / 1000000000)
       else decide (diff ≤ |ex| * (t / 100)))
  | _, _ => false

/-- utils.js mapMaterialClassificationToExcel: keyword detection on the
lowercased text; negation plus one of the weld, cast, adhesive or forge
keywords plus the relevance marker gives the fixed code, anything else
the empty string. -/
def mapMaterialClassificationToExcel (text : Option String) : String :=
  match text with
  | none => ""
  | some t =>
    if t = "" then ""
    else
      let s := jsToLowerStr t
      let hasNicht := strContains s "nicht"
      let hasSchweiss := strContains s "schwei" || strContains s "schweiß" || strContains s "schweiss"
      let hasGuss := strContains s "guss"
      let hasKlebe := strContains s "klebe"
      let hasSchmiede := strContains s "schmiede"
      let hasRelevant := strContains s "relev"
      if hasNicht && (hasSchweiss || hasGuss || hasKlebe || hasSchmiede) && hasRelevant
      then "OHNE/N/N/N/N" else ""

/-- utils.js a2vUrl. -/
def a2vUrl (a2v : String) : String :=
  "https://www.mymobase.com/de/p/" ++ jsTrimStr a2v

/-! ## Server: comparison helpers -/

/-- Verdict and explanation of one field comparison (GREEN is MATCH,
RED is MISMATCH, ORANGE is UNRESOLVED). -/
structure CmpResult where
  status : String
  comment : String
deriving DecidableEq

/-- Canonical form used by compareText: trim, lowercase, collapse every
whitespace run to one space (the replace of s-plus by a single space). -/
def collapseWsAux (prevSpace : Bool) : List Char → List Char
  | [] => []
  | c :: rest =>
    if jsIsSpace c then
      if prevSpace then collapseWsAux true rest
      else ' ' :: collapseWsAux true rest
    else c :: collapseWsAux false rest

/-- The normalization chain of compareText applied to one side. -/
def canonText (s : String) : String :=
  String.mk (collapseWsAux false ((jsTrimStr s).data.map Char.toLower))

/-- Server compareText: absence handling, then case-insensitive
whitespace-collapsed equality. -/
def compareText (excel web : String) : CmpResult :=
  if excel = "" && web = "" then ⟨"ORANGE", "Beide fehlen"⟩
  else if excel = "" then ⟨"ORANGE", "Excel fehlt"⟩
  else if web = "" then ⟨"ORANGE", "Web fehlt"⟩
  else if canonText excel = canonText web then ⟨"GREEN", "identisch"⟩
  else ⟨"RED", "abweichend"⟩

/-- Server comparePartNo: absence handling, then equality of the
normalized part numbers. -/
def comparePartNo (excel web : String) : CmpResult :=
  if excel = "" && web = "" then ⟨"ORANGE", "Beide fehlen"⟩
  else if excel = "" then ⟨"ORANGE", "Excel fehlt"⟩
  else if web = "" then ⟨"ORANGE", "Web fehlt"⟩
  else if normPartNo (some excel) = normPartNo (some web) then
    ⟨"GREEN", "identisch (normalisiert)"⟩
  else ⟨"RED", "abweichend: Excel " ++ excel ++ " vs. Web " ++ web⟩

/-- Number formatting of toFixed: the scaled value rounded half toward
positive infinity, printed with exactly d fraction digits. -/
def fmtFixed (q : ℚ) (d : Nat) : String :=
  let n : ℤ := ⌊q * (10 : ℚ) ^ d + 1 / 2⌋
  let sign := if n < 0 then "-" else ""
  let digits := toString n.natAbs
  let padded :=
    if digits.length < d + 1 then
      String.mk (List.replicate (d + 1 - digits.length) '0') ++ digits
    else digits
  let ip := String.mk (padded.data.take (padded.data.length - d))
  let fp := String.mk (padded.data.drop (padded.data.length - d))
  if d = 0 then sign ++ ip else sign ++ ip ++ "." ++ fp

/-- Configured weight tolerance in percent (environment default zero). -/
def WEIGHT_TOL_PCT : Option ℚ := some 0

/-- Server compareWeight: normalize both sides to kilograms, handle
absence, then tolerance check; the comment reports the percentage delta
relative to the Excel value floored at a small epsilon. -/
def compareWeight (excelVal webVal : CellVal) : CmpResult :=
  let exKg := normalizeWeightToKg excelVal
  let wbKg := normalizeWeightToKg webVal
  match exKg, wbKg with
  | none, none => ⟨"ORANGE", "Beide fehlen"⟩
  | none, some _ => ⟨"ORANGE", "Excel fehlt"⟩
  | some _, none => ⟨"ORANGE", "Web fehlt/unklar"⟩
  | some ex, some wb =>
    let ok := withinToleranceKG (some ex) (some wb) WEIGHT_TOL_PCT
    let diffPct := (wb - ex) / max (1 / 1000000000) |ex| * 100
    if ok then ⟨"GREEN", "Δ " ++ fmtFixed diffPct 1 ++ "%"⟩
    else
      ⟨"RED", "Excel " ++ fmtFixed ex 3 ++ " kg vs. Web " ++ fmtFixed wb 3
        ++ " kg (" ++ fmtFixed diffPct 1 ++ "%)"⟩

/-- JS falsiness of an optional rounded dimension component (null and
zero are falsy). -/
def jsFalsyDim (x : Option ℤ) : Bool :=
  match x with
  | none => true
  | some n => n == 0

/-- Display of an optional Excel dimension in the mismatch comment (the
or-empty idiom renders null and zero as the empty string). -/
def optQDisp (x : Option ℚ) : String :=
  match x with
  | none => ""
  | some q => if q = 0 then "" else ratToString q

/-- Display of an optional web dimension in the mismatch comment. -/
def optZDisp (x : Option ℤ) : String :=
  match x with
  | none => ""
  | some n => if n = 0 then "" else toString n

/-- Server compareDimensions: the Excel side from three discrete cells
through toNumber, the web side from parsing the combined text; presence
of the Excel side is a null test, presence of the web side a truthiness
test; componentwise epsilon equality, all three must match. -/
def compareDimensions (excelU excelV excelW : CellVal) (webDimText : String) : CmpResult :=
  let L := toNumber excelU
  let B := toNumber excelV
  let H := toNumber excelW
  let fromWeb := parseDimensionsToLBH webDimText
  let anyExcel := L.isSome || B.isSome || H.isSome
  if !anyExcel && jsFalsyDim fromWeb.L && jsFalsyDim fromWeb.B && jsFalsyDim fromWeb.H then
    ⟨"ORANGE", "Beide fehlen"⟩
  else if !anyExcel then ⟨"ORANGE", "Excel fehlt"⟩
  else if jsFalsyDim fromWeb.L && jsFalsyDim fromWeb.B && jsFalsyDim fromWeb.H then
    ⟨"ORANGE", "Web fehlt/unklar"⟩
  else
    let eqc := fun (a : Option ℚ) (b : Option ℤ) =>
      match a, b with
      | some x, some y => decide (|x - (y : ℚ)| < 1 / 1000000)
      | _, _ => false
    if eqc L fromWeb.L && eqc B fromWeb.B && eqc H fromWeb.H then
      ⟨"GREEN", "L×B×H identisch (mm)"⟩
    else
      ⟨"RED", "Excel " ++ optQDisp L ++ "×" ++ optQDisp B ++ "×" ++ optQDisp H
        ++ " mm vs. Web " ++ optZDisp fromWeb.L ++ "×" ++ optZDisp fromWeb.B
        ++ "×" ++ optZDisp fromWeb.H ++ " mm"⟩

/-- Server statusCellFill: the argb fill color keyed by verdict. -/
def statusCellFill (status : String) : String :=
  if status = "GREEN" then "FFD5F4E6"
  else if status = "RED" then "FFFDEAEA"
  else "FFFFF3CD"

/-! ## Server: worksheet model -/

/-- One worksheet cell: a value and an optional fill color. -/
structure Cell where
  value : CellVal := .empty
  fill : Option String := none
deriving DecidableEq

/-- A row maps column letters to cells. -/
abbrev Row := List (String × Cell)

/-- A worksheet is its list of rows; Excel row r is the list entry r-1. -/
abbrev Worksheet := List Row

/-- Read a cell from a row (missing cells are blank). -/
def rowGet (row : Row) (col : String) : Cell :=
  (row.lookup col).getD {}

/-- Write a cell into a row. -/
def rowPut (row : Row) (col : String) (c : Cell) : Row :=
  row.filter (fun p => p.1 != col) ++ [(col, c)]

/-- Row r of the worksheet, 1-based. -/
def wsRow (ws : Worksheet) (r : Nat) : Row :=
  (ws[r - 1]?).getD []

/-- Cell at column col, row r. -/
def wsCell (ws : Worksheet) (col : String) (r : Nat) : Cell :=
  rowGet (wsRow ws r) col

/-- Assign the value of a cell (getCell(...).value assignment). -/
def wsSetValue (ws : Worksheet) (col : String) (r : Nat) (v : CellVal) : Worksheet :=
  ws.set (r - 1) (rowPut (wsRow ws r) col { rowGet (wsRow ws r) col with value := v })

/-- Assign the fill of a cell (getCell(...).fill assignment). -/
def wsSetFill (ws : Worksheet) (col : String) (r : Nat) (f : String) : Worksheet :=
  ws.set (r - 1) (rowPut (wsRow ws r) col { rowGet (wsRow ws r) col with fill := some f })

/-- Insert one blank row before 0-based position n (spliceRows with
delete count zero and one new row); past the end of the sheet the last
position appends. -/
def insertBlankAt : Nat → Worksheet → Worksheet
  | 0, ws => ([] : Row) :: ws
  | _ + 1, [] => []
  | n + 1, row :: rest => row :: insertBlankAt n rest

/-- spliceRows at 1-based row at1, inserting one blank row. -/
def spliceInsertBlank (ws : Worksheet) (at1 : Nat) : Worksheet :=
  insertBlankAt (at1 - 1) ws

/-- Header row constant of the server. -/
def HEADER_ROW : Nat := 3

/-- First data row constant of the server. -/
def FIRST_DATA_ROW : Nat := 4

/-- Candidate test of the row walk: one of the marker columns A, B, C, Z
holds a truthy value with non-blank trimmed string form. -/
def isProductRow (ws : Worksheet) (r : Nat) : Bool :=
  ["A", "B", "C", "Z"].any (fun c =>
    let v := (wsCell ws c r).value
    cellTruthy v && (jsTrimStr (cellToString v) != ""))

/-- The candidate rows of a worksheet: data rows from FIRST_DATA_ROW to
the last row that pass the marker test, computed once per sheet. -/
def candidateRows (ws : Worksheet) : List Nat :=
  (List.range' FIRST_DATA_ROW (ws.length + 1 - FIRST_DATA_ROW)).filter
    (fun r => isProductRow ws r)

/-! ## Server: retrieved record and the per-row reconciliation step -/

/-- The record the scraper returns for one key. -/
structure WebData where
  A2V : String := ""
  URL : String := ""
  Produkttitel : String := ""
  WeitereArtikelnummer : String := ""
  Gewicht : String := ""
  Abmessung : String := ""
  Werkstoff : String := ""
  Materialklassifizierung : String := ""
deriving DecidableEq

/-- Body of the reverse row walk for one candidate row r: read the Excel
cells, look up the scraped record (placeholder when the key is ineligible
or missing), insert the two blank rows after r, populate the web-data row
r+1 and the comparison row r+2. -/
def processCandidate (results : List (String × WebData)) (ws : Worksheet) (r : Nat) : Worksheet :=
  let A2V := jsToUpperStr (jsTrimStr (jsStringOrEmpty (wsCell ws "Z" r).value))
  let manufNoExcel := (wsCell ws "E" r).value
  let titleExcel := (wsCell ws "C" r).value
  let weightExcel := (wsCell ws "S" r).value
  let lenExcel := (wsCell ws "U" r).value
  let widExcel := (wsCell ws "V" r).value
  let heiExcel := (wsCell ws "W" r).value
  let werkstoffExcel := (wsCell ws "P" r).value
  let noteExcel := (wsCell ws "N" r).value
  let webData :=
    match (if jsStartsWith A2V "A2V" then results.lookup A2V else none) with
    | some wd => wd
    | none => { A2V := A2V, URL := a2vUrl A2V }
  let insertAt := r + 1
  let ws1 := spliceInsertBlank ws insertAt
  let ws2 := spliceInsertBlank ws1 (insertAt + 1)
  let webRow := insertAt
  let cmpRow := insertAt + 1
  let ws3 := wsSetValue ws2 "Z" webRow (.str A2V)
  let ws4 := wsSetValue ws3 "E" webRow (.str webData.WeitereArtikelnummer)
  let ws5 := wsSetValue ws4 "C" webRow (.str webData.Produkttitel)
  let ws6 := wsSetValue ws5 "S" webRow (.str webData.Gewicht)
  let dimParsed := parseDimensionsToLBH webData.Abmessung
  let ws7 := dimParsed.L.elim ws6 (fun k => wsSetValue ws6 "U" webRow (.num (k : ℚ)))
  let ws8 := dimParsed.B.elim ws7 (fun k => wsSetValue ws7 "V" webRow (.num (k : ℚ)))
  let ws9 := dimParsed.H.elim ws8 (fun k => wsSetValue ws8 "W" webRow (.num (k : ℚ)))
  let ws10 := wsSetValue ws9 "P" webRow (.str webData.Werkstoff)
  let ws11 := wsSetValue ws10 "N" webRow
    (.str (mapMaterialClassificationToExcel (some webData.Materialklassifizierung)))
  let cmpZ := compareText A2V (if webData.A2V != "" then webData.A2V else A2V)
  let ws12 := wsSetValue ws11 "Z" cmpRow (.str cmpZ.comment)
  let ws13 := wsSetFill ws12 "Z" cmpRow (statusCellFill cmpZ.status)
  let cmpE := comparePartNo (jsStringOrEmpty manufNoExcel) webData.WeitereArtikelnummer
  let ws14 := wsSetValue ws13 "E" cmpRow (.str cmpE.comment)
  let ws15 := wsSetFill ws14 "E" cmpRow (statusCellFill cmpE.status)
  let cmpC := compareText (jsStringOrEmpty titleExcel) webData.Produkttitel
  let ws16 := wsSetValue ws15 "C" cmpRow (.str cmpC.comment)
  let ws17 := wsSetFill ws16 "C" cmpRow (statusCellFill cmpC.status)
  let cmpS := compareWeight weightExcel (.str webData.Gewicht)
  let ws18 := wsSetValue ws17 "S" cmpRow (.str cmpS.comment)
  let ws19 := wsSetFill ws18 "S" cmpRow (statusCellFill cmpS.status)
  let cmpDim := compareDimensions lenExcel widExcel heiExcel webData.Abmessung
  let ws20 := wsSetValue ws19 "U" cmpRow (.str cmpDim.comment)
  let ws21 := wsSetFill ws20 "U" cmpRow (statusCellFill cmpDim.status)
  let cmpP := compareText (jsStringOrEmpty werkstoffExcel) webData.Werkstoff
  let ws22 := wsSetValue ws21 "P" cmpRow (.str cmpP.comment)
  let ws23 := wsSetFill ws22 "P" cmpRow (statusCellFill cmpP.status)
  let mappedN := mapMaterialClassificationToExcel (some webData.Materialklassifizierung)
  let cmpN := compareText (jsToUpperStr (jsStringOrEmpty noteExcel)) (jsToUpperStr mappedN)
  let ws24 := wsSetValue ws23 "N" cmpRow (.str cmpN.comment)
  let ws25 := wsSetFill ws24 "N" cmpRow (statusCellFill cmpN.status)
  ws25

/-- One step of the reverse walk (the loop body applied to the current
sheet state). -/
def stepC (results : List (String × WebData)) (r : Nat) (acc : Worksheet) : Worksheet :=
  processCandidate results acc r

/-- The worksheet pass of the batch endpoint: sheets shorter than the
header row are skipped; otherwise the candidate set is computed once and
the candidates are processed in descending row order (the right fold over
the ascending candidate list). -/
def processSheet (results : List (String × WebData)) (ws : Worksheet) : Worksheet :=
  if ws.length < HEADER_ROW then ws
  else (candidateRows ws).foldr (stepC results) ws

/-! ## Server: single-entity endpoint -/

/-- Response of the single-entity endpoint. -/
inductive ApiResp
  | ok (data : WebData)
  | badRequest (err : String)
  | serverError (err : String)
deriving DecidableEq

/-- The single-entity handler: normalize the key, reject non-A2V keys
with status 400 before any fetch, otherwise call the injected fetch
capability once and return its record (or its failure as status 500).
The second component is the list of keys fetched during the request. -/
def apiScrape (fetchOne : String → Except String WebData) (articleNumber : Option String) :
    ApiResp × List String :=
  let a2v := jsToUpperStr (jsTrimStr (articleNumber.getD ""))
  if !(jsStartsWith a2v "A2V") then (.badRequest "Nur A2V-Nummern erlaubt", [])
  else
    match fetchOne a2v with
    | .ok r => (.ok r, [a2v])
    | .error e => (.serverError e, [a2v])

/-! ## Auxiliary definitions used by the verification statements -/

/-- The classification condition as the specification words it: the
lowercased text contains the negation marker, at least one of the weld,
cast, adhesive and forge keywords, and the relevance marker.  This is the
specification-side definition, to be compared with the source-side
mapMaterialClassificationToExcel. -/
def materialCondSpec (text : Option String) : Bool :=
  match text with
  | none => false
  | some t =>
    let s := jsToLowerStr t
    strContains s "nicht"
      && (strContains s "schwei" || strContains s "guss" || strContains s "klebe"
            || strContains s "schmiede")
      && strContains s "relev"

/-- The character-list core of normPartNo: uppercase then remove the
stripped class. -/
def normCleanL (l : List Char) : List Char :=
  (l.map Char.toUpper).filter (fun c => !jsStripClass c)

/-- Shape invariant of the per-candidate mutation: the sheet is the first
r rows of the base sheet, then two rows, then the remaining rows of the
base sheet. -/
def ShapeInvAt (ws0 : Worksheet) (r : Nat) (ws : Worksheet) : Prop :=
  ∃ w c, ws = ws0.take r ++ w :: c :: ws0.drop r

/-- Concrete four-row sheet with one candidate row, used to instantiate
the frame theorem. -/
def wsC3 : Worksheet := [[], [], [], [("Z", { value := CellVal.str "A2V1" })]]

/-- Concrete five-row sheet with two candidate rows, used to instantiate
the reverse-order theorem. -/
def wsC4 : Worksheet :=
  [[], [], [], [("Z", { value := CellVal.str "A2V1" })],
   [("C", { value := CellVal.str "Titel" })]]

/-! ## Character-level facts about the ASCII uppercase map -/

theorem char_ofNat_toNat {m : Nat} (h : m < 55296) : (Char.ofNat m).toNat = m := by
  have hv : m.isValidChar := Or.inl h
  simp [Char.ofNat, hv, Char.ofNatAux, Char.toNat, UInt32.toNat, BitVec.toNat_ofNatLt]

theorem toUpper_eq_self {c : Char} (h : ¬(97 ≤ c.toNat ∧ c.toNat ≤ 122)) :
    Char.toUpper c = c := by
  unfold Char.toUpper
  simp only []
  rw [if_neg]
  exact fun hc => h ⟨hc.1, hc.2⟩

theorem toUpper_toNat_of_lower {c : Char} (h : 97 ≤ c.toNat ∧ c.toNat ≤ 122) :
    (Char.toUpper c).toNat = c.toNat - 32 := by
  unfold Char.toUpper
  simp only []
  rw [if_pos ⟨h.1, h.2⟩]
  exact char_ofNat_toNat (by omega)

theorem toUpper_idem (c : Char) : Char.toUpper (Char.toUpper c) = Char.toUpper c := by
  by_cases h : 97 ≤ c.toNat ∧ c.toNat ≤ 122
  · apply toUpper_eq_self
    rw [toUpper_toNat_of_lower h]
    omega
  · rw [toUpper_eq_self h]
    exact toUpper_eq_self h

theorem isLower_iff_toNat (c : Char) : c.isLower = true ↔ 97 ≤ c.toNat ∧ c.toNat ≤ 122 := by
  have h1 : ((97 : UInt32) ≤ c.val) ↔ 97 ≤ c.toNat := by
    rw [UInt32.le_def]; exact Iff.rfl
  have h2 : (c.val ≤ (122 : UInt32)) ↔ c.toNat ≤ 122 := by
    rw [UInt32.le_def]; exact Iff.rfl
  simp [Char.isLower, ← h1, ← h2, GE.ge]

theorem isLower_toUpper_false (c : Char) : (Char.toUpper c).isLower = false := by
  by_cases h : 97 ≤ c.toNat ∧ c.toNat ≤ 122
  · have hn := toUpper_toNat_of_lower h
    rw [Bool.eq_false_iff]
    intro hc
    have := (isLower_iff_toNat _).mp hc
    omega
  · rw [toUpper_eq_self h, Bool.eq_false_iff]
    intro hc
    exact h ((isLower_iff_toNat _).mp hc)

theorem mem_space_toNat :
    ∀ c ∈ jsSpaceChars, (c.toNat < 65 ∨ 90 < c.toNat) ∧ (c.toNat < 97 ∨ 122 < c.toNat) := by
  decide

theorem strip_char_toNat {c : Char} (h : jsStripClass c = true) :
    (c.toNat < 65 ∨ 90 < c.toNat) ∧ (c.toNat < 97 ∨ 122 < c.toNat) := by
  simp only [jsStripClass, Bool.or_eq_true, decide_eq_true_eq] at h
  rcases h with ((hs | rfl) | rfl) | rfl
  · have hm : c ∈ jsSpaceChars := by simpa [jsIsSpace] using hs
    exact mem_space_toNat c hm
  · decide
  · decide
  · decide

theorem strip_toUpper (c : Char) : jsStripClass (Char.toUpper c) = jsStripClass c := by
  by_cases h : 97 ≤ c.toNat ∧ c.toNat ≤ 122
  · have hup := toUpper_toNat_of_lower h
    have e1 : jsStripClass (Char.toUpper c) = false := by
      rw [Bool.eq_false_iff]
      intro hc
      have := strip_char_toNat hc
      omega
    have e2 : jsStripClass c = false := by
      rw [Bool.eq_false_iff]
      intro hc
      have := strip_char_toNat hc
      omega
    rw [e1, e2]
  · rw [toUpper_eq_self h]

theorem normCleanL_idem (l : List Char) : normCleanL (normCleanL l) = normCleanL l := by
  induction l with
  | nil => rfl
  | cons c rest ih =>
    by_cases h : jsStripClass (Char.toUpper c) = true
    · simp only [normCleanL, List.map_cons, List.filter_cons, h] at ih ⊢
      simpa [normCleanL] using ih
    · rw [Bool.not_eq_true] at h
      simp only [normCleanL, List.map_cons, List.filter_cons, h] at ih ⊢
      simp only [Bool.not_false, if_pos, List.map_cons, List.filter_cons, toUpper_idem,
        strip_toUpper, h]
      simpa [normCleanL] using ih

/-! ## Claim theorems (with their helper lemmas) -/

/-- C1: parseDimensionTriple on the two specified examples.  The second
example behaves as specified, but the first does not: the meter detector
also fires on the trailing mm because the string ends with the letter m,
so the millimeter input is scaled by 1000 instead of 1.  This theorem
evaluates the embedded source on both specified inputs and exhibits the
divergence on the first one. -/
theorem C1_parseDimensions_eval :
    parseDimensionsToLBH "30x20x10 mm" = ⟨some 30000, some 20000, some 10000⟩
  ∧ parseDimensionsToLBH "0.3 x 0.2 x 0.1 m" = ⟨some 300, some 200, some 100⟩ := by
  constructor <;> with_unfolding_all rfl

/-- C2: normalizeWeightKg on the three specified examples.  The milligram
and no-unit examples behave as specified, but the metric-ton example does
not: cleanNumberString removes all whitespace first, so the t of 2.5 t
becomes adjacent to a digit and the word-bounded ton pattern cannot
match; the value falls through to the default kilogram branch and 2.5 is
returned instead of 2500.  This theorem evaluates the embedded source on
all three specified inputs. -/
theorem C2_normalizeWeight_eval :
    normalizeWeightToKg (.str "2.5 t") = some (5 / 2)
  ∧ normalizeWeightToKg (.str "500 mg") = some (1 / 2000)
  ∧ normalizeWeightToKg (.str "3,2") = some (16 / 5) := by
  refine ⟨?_, ?_, ?_⟩ <;> with_unfolding_all rfl

/-- C10: normPartNo maps null, undefined and the empty string to the
empty string, is idempotent on every string, and its output never
contains a stripped character (whitespace, hyphen, slash, underscore)
nor a lowercase letter. -/
theorem C10_normPartNo :
    normPartNo none = ""
  ∧ normPartNo (some "") = ""
  ∧ (∀ s : String, normPartNo (some (normPartNo (some s))) = normPartNo (some s))
  ∧ (∀ s : String, ∀ c ∈ (normPartNo (some s)).data,
      jsStripClass c = false ∧ c.isLower = false) := by
  refine ⟨rfl, rfl, ?_, ?_⟩
  · intro s
    by_cases hs : s = ""
    · simp [normPartNo, hs]
    · have key : normPartNo (some s) = String.mk (normCleanL s.data) := by
        simp [normPartNo, hs, normCleanL]
      rw [key]
      by_cases h2 : String.mk (normCleanL s.data) = ""
      · rw [h2]; rfl
      · simp only [normPartNo, h2, if_neg]
        show String.mk (normCleanL (normCleanL s.data)) = String.mk (normCleanL s.data)
        rw [normCleanL_idem]
  · intro s c hc
    by_cases hs : s = ""
    · simp [normPartNo, hs] at hc
    · have key : normPartNo (some s) = String.mk (normCleanL s.data) := by
        simp [normPartNo, hs, normCleanL]
      rw [key] at hc
      have hc2 : c ∈ normCleanL s.data := hc
      unfold normCleanL at hc2
      have hmem := List.mem_filter.mp hc2
      obtain ⟨x, _, rfl⟩ := List.mem_map.mp hmem.1
      refine ⟨?_, isLower_toUpper_false x⟩
      have := hmem.2
      simpa using this

/-- C10 witness: the idempotence equation instantiated at a concrete
part number. -/
theorem C10_normPartNo_witness :
    normPartNo (some (normPartNo (some "a2v-1234 56/7"))) = normPartNo (some "a2v-1234 56/7") :=
  C10_normPartNo.2.2.1 "a2v-1234 56/7"

/-- C5 counterexample: on two non-empty unequal inputs the MISMATCH
comment is the fixed string abweichend, which contains neither raw
value, so the claim that the comment includes both raw values fails. -/
theorem C5_compareText_counterexample :
    compareText "foo" "bar" = ⟨"RED", "abweichend"⟩
  ∧ strContains (compareText "foo" "bar").comment "foo" = false
  ∧ strContains (compareText "foo" "bar").comment "bar" = false := by
  refine ⟨by decide, by decide, by decide⟩

/-- C5 (amended): compareText returns UNRESOLVED with comment Beide
fehlen when both sides are absent, UNRESOLVED naming the missing side
when exactly one is absent, and otherwise MATCH exactly when the two
values agree after trimming, case folding and whitespace collapsing,
else MISMATCH with the fixed comment abweichend (the raw values are not
included in the comment). -/
theorem C5_compareText_amended (a b : String) :
    (a = "" → b = "" → compareText a b = ⟨"ORANGE", "Beide fehlen"⟩)
  ∧ (a = "" → b ≠ "" → compareText a b = ⟨"ORANGE", "Excel fehlt"⟩)
  ∧ (a ≠ "" → b = "" → compareText a b = ⟨"ORANGE", "Web fehlt"⟩)
  ∧ (a ≠ "" → b ≠ "" →
      ((compareText a b = ⟨"GREEN", "identisch"⟩ ↔ canonText a = canonText b)
     ∧ (canonText a ≠ canonText b → compareText a b = ⟨"RED", "abweichend"⟩))) := by
  refine ⟨?_, ?_, ?_, ?_⟩
  · intro ha hb; simp [compareText, ha, hb]
  · intro ha hb; simp [compareText, ha, hb]
  · intro ha hb; simp [compareText, ha, hb]
  · intro ha hb
    constructor
    · by_cases hc : canonText a = canonText b <;> simp [compareText, ha, hb, hc]
    · intro hc; simp [compareText, ha, hb, hc]

/-- C5 witness: the amended MATCH condition instantiated at two inputs
equal up to case and whitespace. -/
theorem C5_compareText_amended_witness :
    compareText "Foo  Bar" "foo bar" = ⟨"GREEN", "identisch"⟩ :=
  ((C5_compareText_amended "Foo  Bar" "foo bar").2.2.2 (by decide) (by decide)).1.mpr
    (by decide)

/-- C6 counterexample: at a negative tolerance the claim as stated
demands the relative-tolerance formula, which is false at equal
operands, but the source takes the strict-equality branch and returns
true. -/
theorem C6_withinTolerance_counterexample :
    withinToleranceKG (some 100) (some 100) (some (-5)) = true
  ∧ ¬(|(100 : ℚ) - 100| ≤ |(100 : ℚ)| * ((-5) / 100)) := by
  constructor
  · with_unfolding_all rfl
  · with_unfolding_all decide

/-- C6 (amended): an absent operand gives false; an absent, zero or
negative tolerance selects the epsilon-bounded strict comparison; a
positive tolerance gives true exactly when the difference is within the
relative tolerance; and the four specified examples hold. -/
theorem C6_withinTolerance_amended :
    (∀ (b t : Option ℚ), withinToleranceKG none b t = false)
  ∧ (∀ (a t : Option ℚ), withinToleranceKG a none t = false)
  ∧ (∀ x y : ℚ, withinToleranceKG (some x) (some y) none
      = decide (|x - y| < 1 / 1000000000))
  ∧ (∀ x y t : ℚ, t ≤ 0 →
      withinToleranceKG (some x) (some y) (some t) = decide (|x - y| < 1 / 1000000000))
  ∧ (∀ x y t : ℚ, 0 < t →
      (withinToleranceKG (some x) (some y) (some t) = true ↔ |x - y| ≤ |x| * (t / 100)))
  ∧ withinToleranceKG (some 100) (some 101) (some 0) = false
  ∧ withinToleranceKG (some 100) (some 101) (some 2) = true
  ∧ withinToleranceKG (some 100) (some (197 / 2)) (some 2) = true
  ∧ withinToleranceKG (some 100) (some 90) (some 2) = false := by
  refine ⟨?_, ?_, ?_, ?_, ?_, ?_, ?_, ?_, ?_⟩
  · intro b t; cases b <;> rfl
  · intro a t; cases a <;> rfl
  · intro x y; rfl
  · intro x y t ht
    unfold withinToleranceKG
    dsimp only
    rw [if_pos]
    simp [ht]
  · intro x y t ht
    unfold withinToleranceKG
    dsimp only
    rw [if_neg]
    · simp
    · simp [ht.ne', not_le.mpr ht]
  · with_unfolding_all rfl
  · with_unfolding_all rfl
  · with_unfolding_all rfl
  · with_unfolding_all rfl

/-- C6 witness: the positive-tolerance equivalence instantiated at
concrete operands inside the tolerance band. -/
theorem C6_withinTolerance_amended_witness :
    withinToleranceKG (some 200) (some 202) (some 2) = true :=
  (C6_withinTolerance_amended.2.2.2.2.1 200 202 2 (by norm_num)).mpr
    (by with_unfolding_all decide)

/-- C7: the single-entity endpoint rejects with status 400 and performs
no fetch exactly when the trimmed uppercased key does not start with the
required prefix; otherwise it fetches exactly the normalized key once
and returns the fetched record (or the failure as a server error), never
the rejection. -/
theorem C7_scrape_endpoint (fetchOne : String → Except String WebData)
    (articleNumber : Option String) :
    (jsStartsWith (jsToUpperStr (jsTrimStr (articleNumber.getD ""))) "A2V" = false →
       apiScrape fetchOne articleNumber = (.badRequest "Nur A2V-Nummern erlaubt", []))
  ∧ (jsStartsWith (jsToUpperStr (jsTrimStr (articleNumber.getD ""))) "A2V" = true →
       ((apiScrape fetchOne articleNumber).2
          = [jsToUpperStr (jsTrimStr (articleNumber.getD ""))]
      ∧ (apiScrape fetchOne articleNumber).1 ≠ .badRequest "Nur A2V-Nummern erlaubt"
      ∧ (∀ r0, fetchOne (jsToUpperStr (jsTrimStr (articleNumber.getD ""))) = .ok r0 →
           (apiScrape fetchOne articleNumber).1 = .ok r0)
      ∧ (∀ e, fetchOne (jsToUpperStr (jsTrimStr (articleNumber.getD ""))) = .error e →
           (apiScrape fetchOne articleNumber).1 = .serverError e))) := by
  constructor
  · intro h; simp [apiScrape, h]
  · intro h
    unfold apiScrape
    dsimp only
    rw [h]
    simp only [Bool.not_true, Bool.false_eq_true, if_false]
    cases hf : fetchOne (jsToUpperStr (jsTrimStr (articleNumber.getD ""))) with
    | ok r0 => simp [hf]
    | error e => simp [hf]

/-- C7 witness: acceptance path at a concrete lowercase key with
whitespace, fetched by a capability that echoes the key. -/
theorem C7_scrape_endpoint_witness :
    (apiScrape (fun k => Except.ok { A2V := k }) (some " a2v77 ")).2
      = [jsToUpperStr (jsTrimStr ((some " a2v77 " : Option String).getD ""))] :=
  ((C7_scrape_endpoint (fun k => Except.ok { A2V := k }) (some " a2v77 ")).2
    (by decide)).1

theorem startsWithL_of_append (p q : List Char) :
    ∀ l, startsWithL (p ++ q) l = true → startsWithL p l = true := by
  induction p with
  | nil => intro l _; rfl
  | cons a p ih =>
    intro l h
    cases l with
    | nil => simp [startsWithL] at h
    | cons c cs =>
      simp only [List.cons_append, startsWithL, Bool.and_eq_true] at h ⊢
      exact ⟨h.1, ih cs h.2⟩

theorem containsL_of_append (p q : List Char) :
    ∀ l, containsL (p ++ q) l = true → containsL p l = true := by
  intro l
  induction l with
  | nil =>
    intro h
    cases p with
    | nil => rfl
    | cons a p' => simp [containsL, startsWithL] at h
  | cons c cs ih =>
    intro h
    unfold containsL at h ⊢
    simp only [Bool.or_eq_true] at h ⊢
    rcases h with h | h
    · exact Or.inl (startsWithL_of_append p q _ h)
    · exact Or.inr (ih h)

theorem schweiss_subsume (s : String) :
    (strContains s "schwei" || strContains s "schweiß" || strContains s "schweiss")
      = strContains s "schwei" := by
  cases h : strContains s "schwei" with
  | true => simp [h]
  | false =>
    have h1 : strContains s "schweiß" = false := by
      rw [Bool.eq_false_iff]
      intro hx
      have e : ("schweiß".data : List Char) = "schwei".data ++ ['ß'] := by decide
      unfold strContains at hx
      rw [e] at hx
      have := containsL_of_append _ _ _ hx
      rw [show containsL "schwei".data s.data = strContains s "schwei" from rfl, h] at this
      exact absurd this (by decide)
    have h2 : strContains s "schweiss" = false := by
      rw [Bool.eq_false_iff]
      intro hx
      have e : ("schweiss".data : List Char) = "schwei".data ++ ['s', 's'] := by decide
      unfold strContains at hx
      rw [e] at hx
      have := containsL_of_append _ _ _ hx
      rw [show containsL "schwei".data s.data = strContains s "schwei" from rfl, h] at this
      exact absurd this (by decide)
    rw [h1, h2]
    rfl

theorem material_eq_spec (t : Option String) :
    mapMaterialClassificationToExcel t
      = (if materialCondSpec t = true then "OHNE/N/N/N/N" else "") := by
  cases t with
  | none => rfl
  | some txt =>
    by_cases he : txt = ""
    · subst he; rfl
    · unfold mapMaterialClassificationToExcel materialCondSpec
      dsimp only
      rw [if_neg he, schweiss_subsume (jsToLowerStr txt)]

/-- C8: classifyMaterial returns the fixed canonical code exactly when
the lowercased text contains a negation marker, at least one of the
weld, cast, adhesive, forge keywords, and the relevance marker; every
other combination, including absent input, gives the empty string; the
two specified examples hold. -/
theorem C8_material_classification (t : Option String) :
    (mapMaterialClassificationToExcel t = "OHNE/N/N/N/N" ↔ materialCondSpec t = true)
  ∧ (materialCondSpec t = false → mapMaterialClassificationToExcel t = "")
  ∧ mapMaterialClassificationToExcel (some "Nicht Schweiss relevant") = "OHNE/N/N/N/N"
  ∧ mapMaterialClassificationToExcel (some "Schweiss relevant") = "" := by
  have h := material_eq_spec t
  refine ⟨?_, ?_, by decide, by decide⟩
  · constructor
    · intro hx
      by_cases hc : materialCondSpec t = true
      · exact hc
      · rw [h, if_neg hc] at hx
        exact absurd hx (by decide)
    · intro hx
      rw [h, if_pos hx]
  · intro hx
    rw [h, if_neg (by simp [hx])]

/-- C8 witness: the classification equivalence instantiated at a
concrete cast-keyword text. -/
theorem C8_material_classification_witness :
    mapMaterialClassificationToExcel (some "Nicht Guss relevant") = "OHNE/N/N/N/N" :=
  (C8_material_classification (some "Nicht Guss relevant")).1.mpr (by decide)

/-- C9: when every parsed web dimension component is absent or zero,
compareDimensions classifies the web side as missing and returns
UNRESOLVED; with any Excel component present (a zero counts, because the
Excel side is tested against null only) the comment is the fixed
web-missing text; and the example text 0x0x0 parses to three zero
components, so numeric values were present on the web side. -/
theorem C9_zero_web_dimensions (u v w : CellVal) (t : String)
    (hL : jsFalsyDim (parseDimensionsToLBH t).L = true)
    (hB : jsFalsyDim (parseDimensionsToLBH t).B = true)
    (hH : jsFalsyDim (parseDimensionsToLBH t).H = true) :
    ((compareDimensions u v w t).status = "ORANGE"
  ∧ (((toNumber u).isSome || (toNumber v).isSome || (toNumber w).isSome) = true →
      compareDimensions u v w t = ⟨"ORANGE", "Web fehlt/unklar"⟩))
  ∧ parseDimensionsToLBH "0x0x0" = ⟨some 0, some 0, some 0⟩ := by
  refine ⟨⟨?_, ?_⟩, by with_unfolding_all rfl⟩
  · unfold compareDimensions
    dsimp only
    rw [hL, hB, hH]
    cases ha : ((toNumber u).isSome || (toNumber v).isSome || (toNumber w).isSome) <;>
      simp [ha]
  · intro ha
    unfold compareDimensions
    dsimp only
    rw [hL, hB, hH, ha]
    simp

/-- C9 witness: the web-missing verdict at the concrete text 0x0x0 with
a zero-valued Excel length present. -/
theorem C9_zero_web_dimensions_witness :
    compareDimensions (.num 0) .empty .empty "0x0x0" = ⟨"ORANGE", "Web fehlt/unklar"⟩ :=
  (C9_zero_web_dimensions (.num 0) .empty .empty "0x0x0"
    (by with_unfolding_all rfl) (by with_unfolding_all rfl)
    (by with_unfolding_all rfl)).1.2 (by with_unfolding_all rfl)

/-! ## Structure of the per-candidate mutation (for the frame and
reverse-order claims) -/

theorem set_at_len {α : Type} (P R : List α) (a b x : α) :
    (P ++ a :: b :: R).set P.length x = P ++ x :: b :: R := by
  induction P with
  | nil => rfl
  | cons p P ih =>
    simp only [List.cons_append, List.length_cons, List.set_cons_succ, ih]

theorem set_at_len1 {α : Type} (P R : List α) (a b x : α) :
    (P ++ a :: b :: R).set (P.length + 1) x = P ++ a :: x :: R := by
  induction P with
  | nil => rfl
  | cons p P ih =>
    simp only [List.cons_append, List.length_cons, List.set_cons_succ, ih]

theorem shape_setValue {ws0 : Worksheet} {r : Nat} {ws : Worksheet} {col : String}
    {r1 : Nat} {v : CellVal} (h : r ≤ ws0.length) (cond : r1 = r + 1 ∨ r1 = r + 2)
    (hs : ShapeInvAt ws0 r ws) : ShapeInvAt ws0 r (wsSetValue ws col r1 v) := by
  obtain ⟨w, c, rfl⟩ := hs
  have hP : (ws0.take r).length = r := by rw [List.length_take]; omega
  rcases cond with rfl | rfl
  · unfold wsSetValue
    rw [show r + 1 - 1 = (ws0.take r).length from by omega]
    exact ⟨_, _, set_at_len _ _ _ _ _⟩
  · unfold wsSetValue
    rw [show r + 2 - 1 = (ws0.take r).length + 1 from by omega]
    exact ⟨_, _, set_at_len1 _ _ _ _ _⟩

theorem shape_setFill {ws0 : Worksheet} {r : Nat} {ws : Worksheet} {col : String}
    {r1 : Nat} {f : String} (h : r ≤ ws0.length) (cond : r1 = r + 1 ∨ r1 = r + 2)
    (hs : ShapeInvAt ws0 r ws) : ShapeInvAt ws0 r (wsSetFill ws col r1 f) := by
  obtain ⟨w, c, rfl⟩ := hs
  have hP : (ws0.take r).length = r := by rw [List.length_take]; omega
  rcases cond with rfl | rfl
  · unfold wsSetFill
    rw [show r + 1 - 1 = (ws0.take r).length from by omega]
    exact ⟨_, _, set_at_len _ _ _ _ _⟩
  · unfold wsSetFill
    rw [show r + 2 - 1 = (ws0.take r).length + 1 from by omega]
    exact ⟨_, _, set_at_len1 _ _ _ _ _⟩

theorem shape_elimDim {ws0 : Worksheet} {r : Nat} {ws : Worksheet} {col : String}
    {r1 : Nat} (o : Option ℤ) (h : r ≤ ws0.length) (cond : r1 = r + 1 ∨ r1 = r + 2)
    (hs : ShapeInvAt ws0 r ws) :
    ShapeInvAt ws0 r (o.elim ws (fun k => wsSetValue ws col r1 (.num (k : ℚ)))) := by
  cases o with
  | none => exact hs
  | some k => exact shape_setValue h cond hs

theorem insert_two_at (r : Nat) (ws : Worksheet) (h : r ≤ ws.length) :
    insertBlankAt (r + 1) (insertBlankAt r ws)
      = ws.take r ++ ([] : Row) :: ([] : Row) :: ws.drop r := by
  induction r generalizing ws with
  | zero => rfl
  | succ n ih =>
    cases ws with
    | nil => simp at h
    | cons row rest =>
      show row :: insertBlankAt (n + 1) (insertBlankAt n rest) = _
      rw [ih rest (by simpa using h)]
      rfl

theorem shape_base (ws0 : Worksheet) (r : Nat) (h : r ≤ ws0.length) :
    ShapeInvAt ws0 r (spliceInsertBlank (spliceInsertBlank ws0 (r + 1)) (r + 1 + 1)) :=
  ⟨[], [], insert_two_at r ws0 h⟩

/-- The loop body for candidate row r turns the sheet into its first r
rows, two synthesized rows, then the remaining rows, touching nothing
else. -/
theorem processCandidate_shape (results : List (String × WebData)) (ws : Worksheet)
    (r : Nat) (h : r ≤ ws.length) : ShapeInvAt ws r (processCandidate results ws r) := by
  unfold processCandidate
  dsimp only
  refine shape_setFill h (Or.inr rfl) ?_
  refine shape_setValue h (Or.inr rfl) ?_
  refine shape_setFill h (Or.inr rfl) ?_
  refine shape_setValue h (Or.inr rfl) ?_
  refine shape_setFill h (Or.inr rfl) ?_
  refine shape_setValue h (Or.inr rfl) ?_
  refine shape_setFill h (Or.inr rfl) ?_
  refine shape_setValue h (Or.inr rfl) ?_
  refine shape_setFill h (Or.inr rfl) ?_
  refine shape_setValue h (Or.inr rfl) ?_
  refine shape_setFill h (Or.inr rfl) ?_
  refine shape_setValue h (Or.inr rfl) ?_
  refine shape_setFill h (Or.inr rfl) ?_
  refine shape_setValue h (Or.inr rfl) ?_
  refine shape_setValue h (Or.inl rfl) ?_
  refine shape_setValue h (Or.inl rfl) ?_
  refine shape_elimDim _ h (Or.inl rfl) ?_
  refine shape_elimDim _ h (Or.inl rfl) ?_
  refine shape_elimDim _ h (Or.inl rfl) ?_
  refine shape_setValue h (Or.inl rfl) ?_
  refine shape_setValue h (Or.inl rfl) ?_
  refine shape_setValue h (Or.inl rfl) ?_
  refine shape_setValue h (Or.inl rfl) ?_
  exact shape_base ws r h

theorem processCandidate_length (results : List (String × WebData)) (ws : Worksheet)
    (r : Nat) (h : r ≤ ws.length) :
    (processCandidate results ws r).length = ws.length + 2 := by
  obtain ⟨w, c, hw⟩ := processCandidate_shape results ws r h
  rw [hw]
  simp only [List.length_append, List.length_cons, List.length_take, List.length_drop]
  omega

theorem processCandidate_getElem_lt (results : List (String × WebData)) (ws : Worksheet)
    (r j : Nat) (h : r ≤ ws.length) (hj : j < r) :
    (processCandidate results ws r)[j]? = ws[j]? := by
  obtain ⟨w, c, hw⟩ := processCandidate_shape results ws r h
  rw [hw]
  have h1 : j < (ws.take r).length := by rw [List.length_take]; omega
  rw [List.getElem?_append_left h1, List.getElem?_take]
  simp [hj]

theorem processCandidate_getElem_ge (results : List (String × WebData)) (ws : Worksheet)
    (r j : Nat) (h : r ≤ ws.length) (hj : r ≤ j) :
    (processCandidate results ws r)[j + 2]? = ws[j]? := by
  obtain ⟨w, c, hw⟩ := processCandidate_shape results ws r h
  have hlen : (ws.take r).length = r := by rw [List.length_take]; omega
  rw [hw]
  have h1 : (ws.take r).length ≤ j + 2 := by rw [List.length_take]; omega
  rw [List.getElem?_append_right h1, hlen]
  rw [show j + 2 - r = ((j - r) + 1) + 1 from by omega]
  rw [List.getElem?_cons_succ, List.getElem?_cons_succ, List.getElem?_drop,
    show r + (j - r) = j from by omega]

theorem stepC_apply (results : List (String × WebData)) (r : Nat) (acc : Worksheet) :
    stepC results r acc = processCandidate results acc r := rfl

/-- Joint length and position-tracking specification of the reverse
walk: the sheet grows by two rows per candidate, and every base row
survives at its index shifted by two per already-lower candidate. -/
theorem foldr_stepC_spec (results : List (String × WebData)) (l : List Nat)
    (ws : Worksheet) (hsort : l.Pairwise (· < ·))
    (hb : ∀ c ∈ l, 1 ≤ c ∧ c ≤ ws.length) :
    ((l.foldr (stepC results) ws).length = ws.length + 2 * l.length)
  ∧ (∀ j, j < ws.length →
      (l.foldr (stepC results) ws)[j + 2 * l.countP (fun c => decide (c ≤ j))]?
        = ws[j]?) := by
  induction l with
  | nil => simp
  | cons r rest ih =>
    rw [List.pairwise_cons] at hsort
    have hb2 : ∀ c ∈ rest, 1 ≤ c ∧ c ≤ ws.length :=
      fun c hc => hb c (List.mem_cons_of_mem _ hc)
    have hbr := hb r (List.mem_cons_self _ _)
    obtain ⟨ihlen, ihget⟩ := ih hsort.2 hb2
    have hrlen : r ≤ (rest.foldr (stepC results) ws).length := by rw [ihlen]; omega
    constructor
    · rw [List.foldr_cons, stepC_apply]
      rw [processCandidate_length _ _ _ hrlen, ihlen, List.length_cons]
      ring
    · intro j hj
      by_cases hc : r ≤ j
      · have hcount : (r :: rest).countP (fun c => decide (c ≤ j))
            = rest.countP (fun c => decide (c ≤ j)) + 1 := by
          rw [List.countP_cons]; simp [hc]
        rw [hcount, List.foldr_cons, stepC_apply]
        rw [show j + 2 * (rest.countP (fun c => decide (c ≤ j)) + 1)
            = (j + 2 * rest.countP (fun c => decide (c ≤ j))) + 2 by ring,
          processCandidate_getElem_ge _ _ _ _ hrlen (by omega)]
        exact ihget j hj
      · have hcount : (r :: rest).countP (fun c => decide (c ≤ j)) = 0 := by
          rw [List.countP_eq_zero]
          intro a ha
          rcases List.mem_cons.mp ha with rfl | ha2
          · simp; omega
          · have := hsort.1 a ha2
            simp; omega
        have hz : rest.countP (fun c => decide (c ≤ j)) = 0 := by
          rw [List.countP_eq_zero]
          intro a ha2
          have := hsort.1 a ha2
          simp; omega
        rw [hcount, List.foldr_cons, stepC_apply]
        rw [Nat.mul_zero, Nat.add_zero,
          processCandidate_getElem_lt _ _ _ _ hrlen (by omega)]
        have h0 := ihget j hj
        rw [hz, Nat.mul_zero, Nat.add_zero] at h0
        exact h0

theorem candidateRows_pairwise (ws : Worksheet) : (candidateRows ws).Pairwise (· < ·) :=
  List.Pairwise.sublist (List.filter_sublist _) (List.pairwise_lt_range' _ _)

theorem candidateRows_bounds (ws : Worksheet) :
    ∀ c ∈ candidateRows ws, 1 ≤ c ∧ c ≤ ws.length := by
  intro c hc
  unfold candidateRows at hc
  have h1 := List.mem_of_mem_filter hc
  rw [List.mem_range'_1] at h1
  unfold FIRST_DATA_ROW at h1
  omega

/-- C3: the worksheet pass only inserts.  The processed sheet has
exactly two more rows per candidate; every base row, header rows
included, reappears unchanged at its index shifted by two per candidate
at or below it; when the data region consists exactly of the M candidate
rows the processed region has exactly 3M rows; and each candidate step
is literally the base sheet with two rows inserted immediately after the
candidate row. -/
theorem C3_insertion_frame (results : List (String × WebData)) (ws : Worksheet) :
    ((processSheet results ws).length = ws.length + 2 * (candidateRows ws).length)
  ∧ (∀ j, j < ws.length →
      (processSheet results ws)[j + 2 * (candidateRows ws).countP (fun c => decide (c ≤ j))]?
        = ws[j]?)
  ∧ ((ws.length - (FIRST_DATA_ROW - 1) = (candidateRows ws).length) →
      (processSheet results ws).length - (FIRST_DATA_ROW - 1)
        = 3 * (candidateRows ws).length)
  ∧ (∀ (acc : Worksheet) (r : Nat), r ≤ acc.length →
      ∃ w c, processCandidate results acc r = acc.take r ++ w :: c :: acc.drop r) := by
  have hspec := foldr_stepC_spec results (candidateRows ws) ws (candidateRows_pairwise ws)
    (candidateRows_bounds ws)
  by_cases hlen : ws.length < HEADER_ROW
  · have hnil : candidateRows ws = [] := by
      unfold candidateRows
      have e : ws.length + 1 - FIRST_DATA_ROW = 0 := by
        unfold FIRST_DATA_ROW
        unfold HEADER_ROW at hlen
        omega
      rw [e]
      rfl
    refine ⟨?_, ?_, ?_, fun acc r hr => processCandidate_shape results acc r hr⟩
    · simp [processSheet, hlen, hnil]
    · intro j hj; simp [processSheet, hlen, hnil]
    · intro hre
      rw [hnil] at hre ⊢
      simp [processSheet, hlen]
      unfold FIRST_DATA_ROW at hre ⊢
      simp at hre
      omega
  · have hps : processSheet results ws = (candidateRows ws).foldr (stepC results) ws := by
      simp [processSheet, hlen]
    refine ⟨?_, ?_, ?_, fun acc r hr => processCandidate_shape results acc r hr⟩
    · rw [hps]; exact hspec.1
    · intro j hj; rw [hps]; exact hspec.2 j hj
    · intro hre
      rw [hps, hspec.1]
      unfold FIRST_DATA_ROW at hre ⊢
      unfold HEADER_ROW at hlen
      omega

/-- C3 witness: the position-tracking equation at base row one and the
3M region equation, both on the concrete one-candidate sheet. -/
theorem C3_insertion_frame_witness :
    (processSheet [] wsC3)[0 + 2 * (candidateRows wsC3).countP (fun c => decide (c ≤ 0))]?
      = wsC3[0]?
  ∧ (processSheet [] wsC3).length - (FIRST_DATA_ROW - 1) = 3 * (candidateRows wsC3).length :=
  ⟨(C3_insertion_frame [] wsC3).2.1 0 (by decide),
   (C3_insertion_frame [] wsC3).2.2.1 (by decide)⟩

/-- C4: the candidate set is computed once from the base sheet and is
strictly ascending, so the right fold processes it in strictly
descending order; for every decomposition of the frozen candidate list,
when a candidate's turn comes (all higher candidates already processed)
its stored row index still addresses its original row. -/
theorem C4_frozen_descending (results : List (String × WebData)) (ws : Worksheet)
    (l1 : List Nat) (r : Nat) (l2 : List Nat)
    (h : candidateRows ws = l1 ++ r :: l2) :
    (candidateRows ws).Pairwise (· < ·)
  ∧ (l2.foldr (stepC results) ws)[r - 1]? = ws[r - 1]? := by
  refine ⟨candidateRows_pairwise ws, ?_⟩
  have hpw := candidateRows_pairwise ws
  rw [h] at hpw
  have hparts := List.pairwise_append.mp hpw
  have hcons := List.pairwise_cons.mp hparts.2.1
  have hgt : ∀ c ∈ l2, r < c := hcons.1
  have hpw2 : l2.Pairwise (· < ·) := hcons.2
  have hb2 : ∀ c ∈ l2, 1 ≤ c ∧ c ≤ ws.length := by
    intro c hc
    exact candidateRows_bounds ws c
      (by rw [h]; exact List.mem_append_right _ (List.mem_cons_of_mem _ hc))
  have hrb : 1 ≤ r ∧ r ≤ ws.length :=
    candidateRows_bounds ws r
      (by rw [h]; exact List.mem_append_right _ (List.mem_cons_self _ _))
  obtain ⟨_, hget⟩ := foldr_stepC_spec results l2 ws hpw2 hb2
  have hcount : l2.countP (fun c => decide (c ≤ r - 1)) = 0 := by
    rw [List.countP_eq_zero]
    intro a ha
    have := hgt a ha
    simp
    omega
  have hg := hget (r - 1) (by omega)
  rw [hcount, Nat.mul_zero, Nat.add_zero] at hg
  exact hg

/-- C4 witness: on the concrete two-candidate sheet, after the higher
candidate row five has been processed, row four still holds its
original data. -/
theorem C4_frozen_descending_witness :
    (([5] : List Nat).foldr (stepC []) wsC4)[4 - 1]? = wsC4[4 - 1]? :=
  (C4_frozen_descending [] wsC4 [] 4 [5] (by decide)).2

end ProjektDB
